import Mathlib

/-!
# Verification of the `netdiag` network-diagnostics library

Shallow embedding of the packet codecs, demux state and probe engines of the
`netdiag` Rust library, together with theorems settling the specification
claims about it.  Byte buffers are modelled as `List Nat` (each element one
octet), machine integers as `Nat` with explicit `% 2^w` where the source relies
on wrapping, and fallible Rust code as `Except`/`PRes` values.
-/

namespace Netdiag

/-! ## Addresses (std::net types)

`Ipv4Addr` is four octets, `Ipv6Addr` sixteen octets (modelled as a list with a
length-16 side condition where needed).  `SocketAddrV6`'s `flowinfo`/`scope_id`
are not modelled: every constructor in the probe code passes 0 for both. -/

structure V4 where
  a : Nat
  b : Nat
  c : Nat
  d : Nat
deriving DecidableEq, Repr

structure V6 where
  bytes : List Nat
deriving DecidableEq, Repr

structure SockV4 where
  ip : V4
  port : Nat
deriving DecidableEq, Repr

structure SockV6 where
  ip : V6
  port : Nat
deriving DecidableEq, Repr

/-- `std::net::IpAddr`. -/
inductive IpA where
  | v4 (a : V4)
  | v6 (a : V6)
deriving DecidableEq, Repr

/-- `std::net::SocketAddr`. -/
inductive SockA where
  | v4 (s : SockV4)
  | v6 (s : SockV6)
deriving DecidableEq, Repr

/-- `SocketAddr::new(ip, port)`. -/
def sockNew : IpA → Nat → SockA
  | .v4 a, p => .v4 ⟨a, p⟩
  | .v6 a, p => .v6 ⟨a, p⟩

def V4.octets (a : V4) : List Nat := [a.a, a.b, a.c, a.d]

/-! ## Association-list model of `HashMap`

The demux maps are `HashMap<K, Sender>` guarded by a mutex.  We model a map as
an association list; `mapInsert` replaces any previous binding of the key, as
`HashMap::insert` does, so keys stay unique. -/

def mapRemove {α β : Type} [DecidableEq α] (m : List (α × β)) (k : α) : List (α × β) :=
  m.filter fun p => decide (p.1 ≠ k)

def mapLookup {α β : Type} [DecidableEq α] (m : List (α × β)) (k : α) : Option β :=
  (m.find? fun p => decide (p.1 = k)).map Prod.snd

def mapInsert {α β : Type} [DecidableEq α] (m : List (α × β)) (k : α) (v : β) : List (α × β) :=
  (k, v) :: mapRemove m k

/-! ## Internet checksum (`src/icmp/icmp4.rs::checksum`)

The source sums 16-bit big-endian words into a wrapping `u32`, folds the
carries, and complements.  `wordSum` is the plain word sum (the source's sum
accumulates it mod `2^32`, made explicit in `icmpChecksum`); `fold16` is the
`while (sum >> 16) > 0` carry-fold loop. -/

def wordSum : List Nat → Nat
  | [] => 0
  | [x] => x * 256
  | x :: y :: rest => (x * 256 + y) + wordSum rest

def fold16 (s : Nat) : Nat :=
  if s < 65536 then s
  else fold16 (s % 65536 + s / 65536)
termination_by s
decreasing_by omega

/-- `checksum(pkt)`: `!sum as u16` on the folded wrapped sum. -/
def icmpChecksum (pkt : List Nat) : Nat :=
  (4294967295 - fold16 (wordSum pkt % 4294967296)) % 65536

/-- `pkt[2..4].copy_from_slice(&checksum(pkt).to_be_bytes())`: write the
checksum of the packet into its own bytes 2..4. -/
def insertCk (pkt : List Nat) : List Nat :=
  match pkt with
  | p0 :: p1 :: _ :: _ :: rest =>
      p0 :: p1 :: (icmpChecksum pkt / 256 % 256) :: (icmpChecksum pkt % 256) :: rest
  | l => l

/-! ## Big-endian serialization of `u16`/`u32` (`to_be_bytes`) -/

def be2 (x : Nat) : List Nat := [x / 256 % 256, x % 256]

def be4 (x : Nat) : List Nat :=
  [x / 16777216 % 256, x / 65536 % 256, x / 256 % 256, x % 256]

/-! ## Trace probes (`src/trace/probe/{probe,icmp,tcp,udp}.rs`)

The source nests `Probe::{ICMP,TCP,UDP}` over `{V4,V6}` variant pairs; we
flatten the six combinations into one inductive. -/

structure ICMPv4p where
  src : V4
  dst : V4
  id : Nat
  seq : Nat
deriving DecidableEq, Repr

structure ICMPv6p where
  src : V6
  dst : V6
  id : Nat
  seq : Nat
deriving DecidableEq, Repr

structure TCPv4p where
  src : SockV4
  dst : SockV4
  seq : Nat
deriving DecidableEq, Repr

structure TCPv6p where
  src : SockV6
  dst : SockV6
  seq : Nat
deriving DecidableEq, Repr

structure UDPv4p where
  src : SockV4
  dst : SockV4
deriving DecidableEq, Repr

structure UDPv6p where
  src : SockV6
  dst : SockV6
deriving DecidableEq, Repr

inductive ProbeT where
  | icmp4 (p : ICMPv4p)
  | icmp6 (p : ICMPv6p)
  | tcp4 (p : TCPv4p)
  | tcp6 (p : TCPv6p)
  | udp4 (p : UDPv4p)
  | udp6 (p : UDPv6p)
deriving DecidableEq, Repr

/-- `Key` (`src/trace/probe/probe.rs`): the demux map key. -/
inductive Key where
  | icmp (src dst : IpA) (id : Nat)
  | tcp (src : SockA) (dst : IpA)
  | udp (src : SockA) (dst : IpA)
deriving DecidableEq, Repr

/-- `Probe::key`.  ICMP keys drop `seq`; TCP/UDP keys drop the destination
port (`IpAddr::from(*dst.ip())`). -/
def ProbeT.key : ProbeT → Key
  | .icmp4 p => .icmp (.v4 p.src) (.v4 p.dst) p.id
  | .icmp6 p => .icmp (.v6 p.src) (.v6 p.dst) p.id
  | .tcp4 p => .tcp (.v4 p.src) (.v4 p.dst.ip)
  | .tcp6 p => .tcp (.v6 p.src) (.v6 p.dst.ip)
  | .udp4 p => .udp (.v4 p.src) (.v4 p.dst.ip)
  | .udp6 p => .udp (.v6 p.src) (.v6 p.dst.ip)

/-- `Probe::increment`: ICMP/TCP advance `seq` (`u16`/`u32`), UDP advances the
destination port (`u16`); wrapping made explicit. -/
def ProbeT.increment : ProbeT → ProbeT
  | .icmp4 p => .icmp4 { p with seq := (p.seq + 1) % 65536 }
  | .icmp6 p => .icmp6 { p with seq := (p.seq + 1) % 65536 }
  | .tcp4 p => .tcp4 { p with seq := (p.seq + 1) % 4294967296 }
  | .tcp6 p => .tcp6 { p with seq := (p.seq + 1) % 4294967296 }
  | .udp4 p => .udp4 { p with dst := { p.dst with port := (p.dst.port + 1) % 65536 } }
  | .udp6 p => .udp6 { p with dst := { p.dst with port := (p.dst.port + 1) % 65536 } }

/-! ## Packet construction (etherparse `Ipv4Header::write` / `PacketBuilder`)

Only the bytes `decode4`/`decode6` later read matter to the claims, but the
headers are laid out in full.  `Ipv4Header::new` zeroes dscp/ecn/identification
and sets don't-fragment; `write` fills the header checksum. -/

/-- The 20 IPv4 header bytes before the checksum is inserted. -/
def ipv4HeaderZeroCk (payloadLen ttl proto : Nat) (src dst : V4) : List Nat :=
  0x45 :: 0 :: ((20 + payloadLen) / 256 % 256) :: ((20 + payloadLen) % 256) ::
    0 :: 0 :: 0x40 :: 0 :: ttl :: proto :: 0 :: 0 ::
    src.a :: src.b :: src.c :: src.d :: dst.a :: dst.b :: dst.c :: dst.d :: []

/-- IPv4 header with its checksum filled in (one's-complement sum over the
header words, as etherparse computes on `write`). -/
def ipv4HeaderBytes (payloadLen ttl proto : Nat) (src dst : V4) : List Nat :=
  let z := ipv4HeaderZeroCk payloadLen ttl proto src dst
  let ck := icmpChecksum z
  0x45 :: 0 :: ((20 + payloadLen) / 256 % 256) :: ((20 + payloadLen) % 256) ::
    0 :: 0 :: 0x40 :: 0 :: ttl :: proto :: (ck / 256 % 256) :: (ck % 256) ::
    src.a :: src.b :: src.c :: src.d :: dst.a :: dst.b :: dst.c :: dst.d :: []

/-- The 8 ICMP echo-request bytes of `ICMPv4::encode` before the checksum is
inserted: `[ECHO_REQUEST, 0]`, zero checksum, `id`, `seq` (big-endian). -/
def icmpEchoPkt (id seq : Nat) : List Nat :=
  8 :: 0 :: 0 :: 0 :: (be2 id ++ be2 seq)

/-- The 64-byte send buffer of `ping::sock4::Sock4::send` after
`ping::probe::Probe::encode` and before the checksum write: echo-request
header with zero checksum, `id`, `seq`, the 16-byte token, and the untouched
zero padding of the `[0u8; 64]` buffer (`encode` returns the whole buffer). -/
def pingEchoBuf (id seq : Nat) (token : List Nat) : List Nat :=
  8 :: 0 :: 0 :: 0 :: (be2 id ++ be2 seq ++ token ++ List.replicate 40 0)

/-- TCP header: ports, `seq`, ack 0, data offset 5, SYN, window 5840, given
checksum, urgent 0 (etherparse `TcpHeader` layout for the builders in the
source). -/
def tcpHeaderBytes (sp dp seq ck : Nat) : List Nat :=
  be2 sp ++ be2 dp ++ be4 seq ++ be4 0 ++ [0x50, 0x02] ++ be2 5840 ++ be2 ck ++ be2 0

/-- IPv4 TCP checksum over the pseudo header (computed by `PacketBuilder`;
never read back by any decoder in the source). -/
def tcp4Ck (src dst : V4) (sp dp seq : Nat) : Nat :=
  icmpChecksum (src.octets ++ dst.octets ++ [0, 6] ++ be2 20 ++ tcpHeaderBytes sp dp seq 0)

/-- UDP header: ports, length 8, given checksum. -/
def udpHeaderBytes (sp dp ck : Nat) : List Nat :=
  be2 sp ++ be2 dp ++ be2 8 ++ be2 ck

/-- IPv4 UDP checksum over the pseudo header (computed by `PacketBuilder`;
never read back by any decoder in the source). -/
def udp4Ck (src dst : V4) (sp dp : Nat) : Nat :=
  icmpChecksum (src.octets ++ dst.octets ++ [0, 17] ++ be2 8 ++ udpHeaderBytes sp dp 0)

/-- `Probe::encode` (`src/trace/probe/*.rs`).  The v4 variants emit a full
IPv4 header (`IP_HDRINCL`) followed by the transport header; the v6 variants
emit only the transport header — the kernel builds the IPv6 header.  Protocol
numbers: ICMP = 1, TCP = 6, UDP = 17. -/
def ProbeT.encode : ProbeT → Nat → List Nat
  | .icmp4 p, ttl => ipv4HeaderBytes 8 ttl 1 p.src p.dst ++ insertCk (icmpEchoPkt p.id p.seq)
  | .icmp6 p, _ => 128 :: 0 :: 0 :: 0 :: (be2 p.id ++ be2 p.seq)
  | .tcp4 p, ttl =>
      ipv4HeaderBytes 20 ttl 6 p.src.ip p.dst.ip ++
        tcpHeaderBytes p.src.port p.dst.port p.seq (tcp4Ck p.src.ip p.dst.ip p.src.port p.dst.port p.seq)
  | .tcp6 p, _ => tcpHeaderBytes p.src.port p.dst.port p.seq 0
  | .udp4 p, ttl =>
      ipv4HeaderBytes 8 ttl 17 p.src.ip p.dst.ip ++
        udpHeaderBytes p.src.port p.dst.port (udp4Ck p.src.ip p.dst.ip p.src.port p.dst.port)
  | .udp6 p, _ => udpHeaderBytes p.src.port p.dst.port 0

/-! ## Header parsing (etherparse reads used by `Probe::decode4`/`decode6`)

Byte access uses `List.getD` with default 0; every access is guarded by the
same length checks the library performs, so the default is never observable. -/

structure Ipv4H where
  protocol : Nat
  source : V4
  destination : V4
deriving DecidableEq, Repr

structure Ipv6H where
  nextHeader : Nat
  source : V6
  destination : V6
deriving DecidableEq, Repr

/-- `Ipv4Header::read_from_slice` / `from_slice`: version nibble must be 4,
IHL at least 5, slice at least IHL·4 bytes; returns the header and the rest of
the slice. -/
def readIpv4 (pkt : List Nat) : Except String (Ipv4H × List Nat) :=
  match pkt with
  | [] => .error "unexpected end of slice"
  | b0 :: _ =>
      if b0 / 16 ≠ 4 then .error "unexpected ip version" else
      if b0 % 16 < 5 then .error "ihl too small" else
      if pkt.length < b0 % 16 * 4 then .error "unexpected end of slice" else
      .ok ({ protocol := pkt.getD 9 0
             source := ⟨pkt.getD 12 0, pkt.getD 13 0, pkt.getD 14 0, pkt.getD 15 0⟩
             destination := ⟨pkt.getD 16 0, pkt.getD 17 0, pkt.getD 18 0, pkt.getD 19 0⟩ },
            pkt.drop (b0 % 16 * 4))

/-- `Ipv6Header::read_from_slice`: slice at least 40 bytes, version nibble 6. -/
def readIpv6 (pkt : List Nat) : Except String (Ipv6H × List Nat) :=
  if pkt.length < 40 then .error "unexpected end of slice" else
  match pkt with
  | [] => .error "unexpected end of slice"
  | b0 :: _ =>
      if b0 / 16 ≠ 6 then .error "unexpected ip version" else
      .ok ({ nextHeader := pkt.getD 6 0
             source := ⟨(pkt.drop 8).take 16⟩
             destination := ⟨(pkt.drop 24).take 16⟩ },
            pkt.drop 40)

/-- `ICMPv4::decode`: needs 8 ICMP bytes; `id`/`seq` from bytes 4..8. -/
def icmp4DecodeP (h : Ipv4H) (tail : List Nat) : Except String ProbeT :=
  if tail.length < 8 then .error "short buffer" else
  .ok (.icmp4 ⟨h.source, h.destination,
               tail.getD 4 0 * 256 + tail.getD 5 0,
               tail.getD 6 0 * 256 + tail.getD 7 0⟩)

/-- `ICMPv6::decode`. -/
def icmp6DecodeP (h : Ipv6H) (tail : List Nat) : Except String ProbeT :=
  if tail.length < 8 then .error "short buffer" else
  .ok (.icmp6 ⟨h.source, h.destination,
               tail.getD 4 0 * 256 + tail.getD 5 0,
               tail.getD 6 0 * 256 + tail.getD 7 0⟩)

/-- The 64-byte working buffer of `TCPv4::decode`/`TCPv6::decode`: the cited
bytes, padded with `0x50` so a truncated TCP citation still parses. -/
def padTcp (tail : List Nat) : List Nat :=
  tail.take 64 ++ List.replicate (64 - min 64 tail.length) 80

/-- `TcpHeaderSlice::from_slice` on the padded buffer: needs 20 bytes and a
data offset of at least 5; yields ports and sequence number. -/
def tcpSliceParse (buf : List Nat) : Except String (Nat × Nat × Nat) :=
  if buf.length < 20 then .error "unexpected end of slice" else
  match buf.drop 12 with
  | [] => .error "unexpected end of slice"
  | off :: _ =>
      if off / 16 < 5 then .error "data offset too small" else
      if buf.length < off / 16 * 4 then .error "unexpected end of slice" else
      .ok (buf.getD 0 0 * 256 + buf.getD 1 0,
           buf.getD 2 0 * 256 + buf.getD 3 0,
           ((buf.getD 4 0 * 256 + buf.getD 5 0) * 256 + buf.getD 6 0) * 256 + buf.getD 7 0)

def tcp4DecodeP (h : Ipv4H) (tail : List Nat) : Except String ProbeT :=
  match tcpSliceParse (padTcp tail) with
  | .error e => .error e
  | .ok (sp, dp, seq) => .ok (.tcp4 ⟨⟨h.source, sp⟩, ⟨h.destination, dp⟩, seq⟩)

def tcp6DecodeP (h : Ipv6H) (tail : List Nat) : Except String ProbeT :=
  match tcpSliceParse (padTcp tail) with
  | .error e => .error e
  | .ok (sp, dp, seq) => .ok (.tcp6 ⟨⟨h.source, sp⟩, ⟨h.destination, dp⟩, seq⟩)

/-- `UdpHeaderSlice::from_slice`: needs 8 bytes. -/
def udp4DecodeP (h : Ipv4H) (tail : List Nat) : Except String ProbeT :=
  if tail.length < 8 then .error "unexpected end of slice" else
  .ok (.udp4 ⟨⟨h.source, tail.getD 0 0 * 256 + tail.getD 1 0⟩,
              ⟨h.destination, tail.getD 2 0 * 256 + tail.getD 3 0⟩⟩)

def udp6DecodeP (h : Ipv6H) (tail : List Nat) : Except String ProbeT :=
  if tail.length < 8 then .error "unexpected end of slice" else
  .ok (.udp6 ⟨⟨h.source, tail.getD 0 0 * 256 + tail.getD 1 0⟩,
              ⟨h.destination, tail.getD 2 0 * 256 + tail.getD 3 0⟩⟩)

/-- `Probe::decode4`: read the IPv4 header, dispatch on `protocol`, return the
embedded probe's `Key`. -/
def decode4 (pkt : List Nat) : Except String Key :=
  match readIpv4 pkt with
  | .error e => .error e
  | .ok (h, tail) =>
      if h.protocol = 1 then (icmp4DecodeP h tail).map ProbeT.key
      else if h.protocol = 6 then (tcp4DecodeP h tail).map ProbeT.key
      else if h.protocol = 17 then (udp4DecodeP h tail).map ProbeT.key
      else .error "unsupported protocol"

/-- `Probe::decode6`: read the IPv6 header, dispatch on `next_header`
(ICMPv6 = 58), return the embedded probe's `Key`. -/
def decode6 (pkt : List Nat) : Except String Key :=
  match readIpv6 pkt with
  | .error e => .error e
  | .ok (h, tail) =>
      if h.nextHeader = 58 then (icmp6DecodeP h tail).map ProbeT.key
      else if h.nextHeader = 6 then (tcp6DecodeP h tail).map ProbeT.key
      else if h.nextHeader = 17 then (udp6DecodeP h tail).map ProbeT.key
      else .error "unsupported protocol"

/-! ## ICMP packet codecs (`src/icmp/{icmp4,icmp6,echo}.rs`)

Rust range indexing `&slice[a..b]` panics when `b > slice.len()`; `PRes`
distinguishes that panic from a returned `Err`.  The guards below mirror the
indices the source evaluates, in evaluation order. -/

inductive PRes (α : Type) where
  | ok (a : α)
  | err
  | panicked
deriving DecidableEq, Repr

/-- `ping::probe::TOKEN_SIZE`. -/
def TOKEN_SIZE : Nat := 16

/-- `icmp::echo::Echo` (the v4 echo payload with the ping token). -/
structure Echo4 where
  id : Nat
  seq : Nat
  token : List Nat
  data : List Nat
deriving DecidableEq, Repr

inductive Unreach4 where
  | net (p : List Nat)
  | host (p : List Nat)
  | protocol (p : List Nat)
  | port (p : List Nat)
  | other (c : Nat) (p : List Nat)
deriving DecidableEq, Repr

inductive Icmp4 where
  | echoRequest (e : Echo4)
  | echoReply (e : Echo4)
  | unreachable (u : Unreach4)
  | timeExceeded (p : List Nat)
  | other (kind code : Nat) (p : List Nat)
deriving DecidableEq, Repr

/-- `Echo::try_from` (`src/icmp/echo.rs`): reads `slice[0..2]`, `slice[2..4]`,
`slice[4..TOKEN_SIZE+4]`, `slice[4..]` in that order; each range panics when it
runs past the end of the slice. -/
def echo4TryFrom (s : List Nat) : PRes Echo4 :=
  if s.length < 2 then .panicked else
  if s.length < 4 then .panicked else
  if s.length < TOKEN_SIZE + 4 then .panicked else
  .ok ⟨s.getD 0 0 * 256 + s.getD 1 0, s.getD 2 0 * 256 + s.getD 3 0,
       (s.drop 4).take TOKEN_SIZE, s.drop 4⟩

/-- `Unreachable::try_from` for ICMPv4: `data = &slice[4..]`. -/
def unreach4TryFrom (code : Nat) (s : List Nat) : PRes Unreach4 :=
  if s.length < 4 then .panicked else
  let data := s.drop 4
  .ok (match code with
       | 0 => .net data
       | 1 => .host data
       | 2 => .protocol data
       | 3 => .port data
       | c => .other c data)

/-- `IcmpV4Packet::try_from`: rejects slices shorter than the 8-byte header,
then discriminates on (type, code); `rest = &slice[4..]`. -/
def icmpV4TryFrom (s : List Nat) : PRes Icmp4 :=
  if s.length < 8 then .err else
  let kind := s.getD 0 0
  let code := s.getD 1 0
  let rest := s.drop 4
  if kind = 0 ∧ code = 0 then
    match echo4TryFrom rest with
    | .ok e => .ok (.echoReply e)
    | .err => .err
    | .panicked => .panicked
  else if kind = 3 then
    match unreach4TryFrom code rest with
    | .ok u => .ok (.unreachable u)
    | .err => .err
    | .panicked => .panicked
  else if kind = 8 ∧ code = 0 then
    match echo4TryFrom rest with
    | .ok e => .ok (.echoRequest e)
    | .err => .err
    | .panicked => .panicked
  else if kind = 11 then
    if rest.length < 4 then .panicked else .ok (.timeExceeded (rest.drop 4))
  else .ok (.other kind code rest)

/-- `icmp6::Echo` payload (no token slice, so no panic for `rest.len ≥ 4`). -/
structure Echo6 where
  id : Nat
  seq : Nat
  data : List Nat
deriving DecidableEq, Repr

def echo6TryFrom (s : List Nat) : PRes Echo6 :=
  if s.length < 2 then .panicked else
  if s.length < 4 then .panicked else
  .ok ⟨s.getD 0 0 * 256 + s.getD 1 0, s.getD 2 0 * 256 + s.getD 3 0, s.drop 4⟩

inductive Unreach6 where
  | address (p : List Nat)
  | port (p : List Nat)
  | other (c : Nat) (p : List Nat)
deriving DecidableEq, Repr

def unreach6TryFrom (code : Nat) (s : List Nat) : PRes Unreach6 :=
  if s.length < 4 then .panicked else
  let data := s.drop 4
  .ok (match code with
       | 3 => .address data
       | 4 => .port data
       | c => .other c data)

inductive Icmp6 where
  | unreachable (u : Unreach6)
  | echoRequest (e : Echo6)
  | echoReply (e : Echo6)
  | hopLimitExceeded (p : List Nat)
  | reassemblyTimeExceeded (p : List Nat)
  | other (kind code : Nat) (p : List Nat)
deriving DecidableEq, Repr

/-- `IcmpV6Packet::try_from`: UNREACHABLE = 1, TIME_EXCEEDED = 3,
ECHO_REQUEST = 128, ECHO_REPLY = 129. -/
def icmpV6TryFrom (s : List Nat) : PRes Icmp6 :=
  if s.length < 8 then .err else
  let kind := s.getD 0 0
  let code := s.getD 1 0
  let rest := s.drop 4
  if kind = 1 then
    match unreach6TryFrom code rest with
    | .ok u => .ok (.unreachable u)
    | .err => .err
    | .panicked => .panicked
  else if kind = 3 ∧ code = 0 then
    if rest.length < 4 then .panicked else .ok (.hopLimitExceeded (rest.drop 4))
  else if kind = 3 ∧ code = 1 then
    if rest.length < 4 then .panicked else .ok (.reassemblyTimeExceeded (rest.drop 4))
  else if kind = 128 ∧ code = 0 then
    match echo6TryFrom rest with
    | .ok e => .ok (.echoRequest e)
    | .err => .err
    | .panicked => .panicked
  else if kind = 129 ∧ code = 0 then
    match echo6TryFrom rest with
    | .ok e => .ok (.echoReply e)
    | .err => .err
    | .panicked => .panicked
  else .ok (.other kind code rest)

/-! ## Trace receive loops (`src/trace/icmp.rs::{recv4,recv6}`)

A step processes one datagram and yields the `(Key, terminal)` pair the loop
would publish through `state.sender(key)` (if any); `?` on a decode failure
becomes `PRes.err`, which — as in the source — ends the loop. -/

/-- One iteration of `recv4` on a received byte buffer. -/
def recv4Step (b : List Nat) : PRes (Option (Key × Bool)) :=
  match readIpv4 b with
  | .error _ => .err
  | .ok (ip, tail) =>
      if ip.protocol = 1 then
        match icmpV4TryFrom tail with
        | .panicked => .panicked
        | .err => .err
        | .ok icmp =>
            match icmp with
            | .timeExceeded pkt =>
                match decode4 pkt with
                | .ok key => .ok (some (key, false))
                | .error _ => .ok none
            | .unreachable what =>
                let pkt := match what with
                  | .net p => p
                  | .host p => p
                  | .protocol p => p
                  | .port p => p
                  | .other _ p => p
                match decode4 pkt with
                | .ok key => .ok (some (key, true))
                | .error _ => .ok none
            | .echoReply echo =>
                .ok (some (.icmp (.v4 ip.destination) (.v4 ip.source) echo.id, true))
            | _ => .ok none
      else .ok none

/-- One iteration of `recv6`: the kernel strips the IPv6 header, so the buffer
starts at the ICMPv6 header; `pinfo` is the `IPV6_PKTINFO` destination used
for the EchoReply key; `from` is the peer address. -/
def recv6Step (b : List Nat) (pinfo : Option V6) (src : V6) : PRes (Option (Key × Bool)) :=
  match icmpV6TryFrom b with
  | .panicked => .panicked
  | .err => .err
  | .ok icmp =>
      match icmp with
      | .hopLimitExceeded pkt =>
          match decode6 pkt with
          | .ok key => .ok (some (key, false))
          | .error _ => .ok none
      | .unreachable what =>
          let pkt := match what with
            | .address p => p
            | .port p => p
            | .other _ p => p
          match decode6 pkt with
          | .ok key => .ok (some (key, false))
          | .error _ => .ok none
      | .echoReply echo =>
          match pinfo with
          | some dst => .ok (some (.icmp (.v6 dst) (.v6 src) echo.id, true))
          | none => .ok none
      | _ => .ok none

/-- Concrete IPv6 source for receive-loop evaluations. -/
def sampleSrc6 : V6 := ⟨[0, 0, 0, 0, 0, 0, 0, 0, 0, 0, 0, 0, 0, 0, 0, 1]⟩

/-- Concrete IPv6 destination for receive-loop evaluations. -/
def sampleDst6 : V6 := ⟨[0, 0, 0, 0, 0, 0, 0, 0, 0, 0, 0, 0, 0, 0, 0, 2]⟩

/-- An ICMPv6 DestinationUnreachable (code 4 = Port) message: 8-byte ICMPv6
header, then the cited packet — the IPv6 header (next header 17 = UDP) and
UDP header of an outstanding trace probe from `[::…:1]:40000` to
`[::…:2]:33434`. -/
def c3Unreachable : List Nat :=
  1 :: 4 :: 0 :: 0 :: 0 :: 0 :: 0 :: 0 ::
    (0x60 :: 0 :: 0 :: 0 :: 0 :: 8 :: 17 :: 64 ::
      (sampleSrc6.bytes ++ sampleDst6.bytes ++ [156, 64, 130, 154, 0, 8, 0, 0]))

/-- Inputs seen by a receive loop: a datagram, or a failing socket read. -/
inductive RIn where
  | pkt (b : List Nat)
  | sockErr
deriving DecidableEq, Repr

/-- Why a receive loop stopped. -/
inductive Stop where
  | decodeErr
  | panicked
  | sockErr
deriving DecidableEq, Repr

/-- The `recv4` loop over a (finite prefix of the) input sequence: the
deliveries it makes and, if it stopped within these inputs, why.  `none`
means the loop is still waiting on the socket. -/
def recv4Loop : List RIn → List (Key × Bool) × Option Stop
  | [] => ([], none)
  | .sockErr :: _ => ([], some .sockErr)
  | .pkt b :: rest =>
      match recv4Step b with
      | .err => ([], some .decodeErr)
      | .panicked => ([], some .panicked)
      | .ok d =>
          let (ds, s) := recv4Loop rest
          (match d with
           | some x => x :: ds
           | none => ds, s)

/-! ## Trace route sweep (`src/trace/trace.rs::Tracer::route`)

`route` pulls rows (one `Vec<Node>` per TTL, starting at TTL 1) through
`take_while` with a `done` flag — the row that first reports a terminal node
or the target address is still emitted, the next row is not — and then
`take(limit)`.  The per-TTL rows are abstracted as `rows : Nat → List Node`
(network behaviour); the combinator structure is modelled exactly. -/

inductive Node where
  | node (ttl : Nat) (ip : IpA) (rtt : Nat) (done : Bool)
  | none (ttl : Nat)
deriving DecidableEq, Repr

/-- The `nodes.iter().any(...)` test inside `route`'s `take_while` closure. -/
def isTerm (addr : IpA) (nodes : List Node) : Bool :=
  nodes.any fun n =>
    match n with
    | .node _ ip _ done => done || decide (ip = addr)
    | .none _ => false

/-- The fused `take_while`/`take(limit)` loop of `route`: `done` is the flag
captured by the closure (`last = done` is checked before `done` is updated
from the current row). -/
def routeGo (addr : IpA) (rows : Nat → List Node) : Bool → Nat → Nat → List (List Node)
  | _, _, 0 => []
  | done, ttl, fuel + 1 =>
      if done then []
      else rows ttl :: routeGo addr rows (isTerm addr (rows ttl)) (ttl + 1) fuel

/-- `Tracer::route`: the TTL sweep starts at 1. -/
def route (addr : IpA) (limit : Nat) (rows : Nat → List Node) : List (List Node) :=
  routeGo addr rows false 1 limit

/-- Spec-side: index of the first terminal row among `rows t, rows (t+1), …`
within `fuel` rows (following the claim's words, for comparison with
`route`). -/
def firstTerm (addr : IpA) (rows : Nat → List Node) : Nat → Nat → Option Nat
  | _, 0 => Option.none
  | t, fuel + 1 =>
      if isTerm addr (rows t) then some 0
      else (firstTerm addr rows (t + 1) fuel).map (· + 1)

/-- Spec-side: number of rows the claim says `route` returns — up to and
including the first terminal row, else `limit`. -/
def specLen (addr : IpA) (limit : Nat) (rows : Nat → List Node) : Nat :=
  match firstTerm addr rows 1 limit with
  | some k => k + 1
  | Option.none => limit

/-! ## Demux state and leases (`src/{ping,knock,trace}/state.rs`)

Senders are abstracted as `Nat` identifiers; the maps and the `Drop`
implementations are modelled exactly. -/

/-- `ping::probe::Token` (16 random bytes). -/
structure Token where
  bytes : List Nat
deriving DecidableEq, Repr

/-- `ping::state::Lease` (the sender/receiver halves are irrelevant to the
cleanup claim). -/
structure PingLease where
  token : Token
deriving DecidableEq, Repr

/-- `ping::state::State::remove`. -/
def pingStateRemove (m : List (Token × Nat)) (t : Token) : List (Token × Nat) :=
  mapRemove m t

/-- `impl Drop for ping::state::Lease`: `state.remove(&self.token)`. -/
def pingLeaseDrop (m : List (Token × Nat)) (l : PingLease) : List (Token × Nat) :=
  pingStateRemove m l.token

/-- `knock::state::Key(SocketAddr, SocketAddr)`. -/
structure KnockKey where
  src : SockA
  dst : SockA
deriving DecidableEq, Repr

structure KnockLease where
  src : SockA
  dst : SockA
deriving DecidableEq, Repr

/-- `knock::state::State::remove`. -/
def knockStateRemove (m : List (KnockKey × Nat)) (src dst : SockA) : List (KnockKey × Nat) :=
  mapRemove m ⟨src, dst⟩

/-- `impl Drop for knock::state::Lease`: `state.remove(self.src, self.dst)`. -/
def knockLeaseDrop (m : List (KnockKey × Nat)) (l : KnockLease) : List (KnockKey × Nat) :=
  knockStateRemove m l.src l.dst

/-- The two protocols `trace::state::State::{reserve,release}` handle (their
`match proto` has only TCP and UDP arms; ICMP probes reserve no port). -/
inductive TProto where
  | tcp (port : Nat)
  | udp (port : Nat)
deriving DecidableEq, Repr

/-- `trace::state::State`'s port-reservation maps (`tcp`/`udp`:
`HashMap<SocketAddr, ()>`, the value abstracted as `Nat`). -/
structure TraceState where
  tcp : List (SockA × Nat)
  udp : List (SockA × Nat)
deriving DecidableEq, Repr

/-- `trace::state::State::release`. -/
def traceRelease (st : TraceState) (proto : TProto) (src : SockA) : TraceState :=
  match proto with
  | .tcp _ => { st with tcp := mapRemove st.tcp src }
  | .udp _ => { st with udp := mapRemove st.udp src }

structure TraceLease where
  proto : TProto
  addr : SockA
deriving DecidableEq, Repr

/-- `impl Drop for trace::state::Lease`: `state.release(self.proto, &self.addr)`. -/
def traceLeaseDrop (st : TraceState) (l : TraceLease) : TraceState :=
  traceRelease st l.proto l.addr

/-- The reservation map a trace lease lives in. -/
def traceMapOf (st : TraceState) : TProto → List (SockA × Nat)
  | .tcp _ => st.tcp
  | .udp _ => st.udp

/-! ## Knock stream (`src/knock/knock.rs::Knocker::knock`)

`knock` awaits `state.reserve(src, dst)` once, before `try_unfold`; the lease
`(src, rx)` is threaded through the unfold state of all `count` iterations and
is dropped only when the stream itself is dropped.  `knockBetween` is the demux
map as observed between iteration `i` and `i + 1` of the stream. -/

def knockBetween (m0 : List (KnockKey × Nat)) (srcIp : IpA) (port : Nat) (dst : SockA)
    (_ : Nat) : List (KnockKey × Nat) :=
  mapInsert m0 ⟨sockNew srcIp port, dst⟩ 0

/-! ## Knock probe (`src/knock/knock.rs::Knocker::probe`)

Each loop pass sends the probe and awaits one reply with the `expiry` timeout;
attempt `i`'s outcome is `attempts i = (sent, reply)` where `reply = none` is
a timeout and `some (head, when)` a delivered TCP header with its arrival
time.  `retries` starts at 1. -/

structure TcpHead where
  syn : Bool
  ack : Bool
  ackNo : Nat
deriving DecidableEq, Repr

def knockProbeGo (seq : Nat) (attempts : Nat → Nat × Option (TcpHead × Nat)) :
    Nat → Nat → Option Nat
  | _, 0 => none
  | i, r + 1 =>
      let (sent, reply) := attempts i
      match reply with
      | some (head, when) =>
          if head.syn && head.ack && decide (head.ackNo = (seq + 1) % 4294967296)
          then some (when - sent)
          else knockProbeGo seq attempts (i + 1) r
      | none => knockProbeGo seq attempts (i + 1) r

/-- `Knocker::probe` with its `retries = 1` policy; the returned value is the
RTT `when.saturating_duration_since(sent)` or `None` for timeout/mismatch. -/
def knockProbe (seq : Nat) (attempts : Nat → Nat × Option (TcpHead × Nat)) : Option Nat :=
  knockProbeGo seq attempts 0 1

/-! ## Spec-side views of the receive loop (for the loop characterization) -/

/-- An input the loop survives: a datagram whose step neither fails nor
panics. -/
def okInput : RIn → Bool
  | .pkt b =>
      match recv4Step b with
      | .ok _ => true
      | _ => false
  | .sockErr => false

/-- The delivery (if any) of a surviving datagram. -/
def deliveryOf : RIn → Option (Key × Bool)
  | .pkt b =>
      match recv4Step b with
      | .ok d => d
      | _ => none
  | .sockErr => none

/-- Why the loop stops at its first non-surviving input, if any. -/
def stopOf : Option RIn → Option Stop
  | Option.none => none
  | some .sockErr => some .sockErr
  | some (.pkt b) =>
      match recv4Step b with
      | .err => some .decodeErr
      | .panicked => some .panicked
      | .ok _ => none

/-! ## Helper lemmas -/

theorem mapLookup_remove {α β : Type} [DecidableEq α] (m : List (α × β)) (k : α) :
    mapLookup (mapRemove m k) k = none := by
  induction m with
  | nil => rfl
  | cons p rest ih =>
      by_cases h : p.1 = k
      · simp [mapRemove, mapLookup, h, ih]
      · simp [mapRemove, mapLookup, h, ih]

theorem mapLookup_insert {α β : Type} [DecidableEq α] (m : List (α × β)) (k : α) (v : β) :
    mapLookup (mapInsert m k v) k = some v := by
  simp [mapInsert, mapLookup]

theorem fold16_lt (s : Nat) : fold16 s < 65536 := by
  induction s using Nat.strong_induction_on with
  | _ s ih =>
      rw [fold16]
      split
      · assumption
      · exact ih _ (by omega)

theorem fold16_mod (s : Nat) : fold16 s % 65535 = s % 65535 := by
  induction s using Nat.strong_induction_on with
  | _ s ih =>
      rw [fold16]
      split
      · rfl
      · rw [ih _ (by omega)]
        omega

theorem fold16_pos (s : Nat) (hs : 0 < s) : 0 < fold16 s := by
  induction s using Nat.strong_induction_on with
  | _ s ih =>
      rw [fold16]
      split
      · exact hs
      · exact ih _ (by omega) (by omega)

theorem fold16_eq_self (s : Nat) (h : s < 65536) : fold16 s = s := by
  rw [fold16]
  simp [h]

/-- The heart of the checksum claim: adding the complement of the folded sum
back into the sum folds to `0xFFFF`. -/
theorem fold16_compl (s : Nat) : fold16 (s + (65535 - fold16 s)) = 65535 := by
  have hls := fold16_lt s
  have hms := fold16_mod s
  set t := s + (65535 - fold16 s) with ht
  have h1 : fold16 t < 65536 := fold16_lt t
  have h2 : fold16 t % 65535 = t % 65535 := fold16_mod t
  have h3 : t % 65535 = 0 := by omega
  have h4 : 0 < t := by
    rcases Nat.eq_zero_or_pos s with hz | hp
    · subst hz
      simp [fold16_eq_self 0 (by norm_num)] at ht
      omega
    · omega
  have h5 : 0 < fold16 t := fold16_pos t h4
  omega

theorem wordSum_le (l : List Nat) (h : ∀ b ∈ l, b ≤ 255) : wordSum l ≤ 65535 * l.length := by
  induction l using wordSum.induct with
  | case1 => simp [wordSum]
  | case2 x =>
      have := h x (by simp)
      simp only [wordSum, List.length_singleton]
      omega
  | case3 x y rest ih =>
      have hx := h x (by simp)
      have hy := h y (by simp)
      have hr := ih (fun b hb => h b (by simp [hb]))
      simp only [wordSum, List.length_cons]
      omega

theorem wordSum_insertCk (p0 p1 : Nat) (rest : List Nat)
    (hck : icmpChecksum (p0 :: p1 :: 0 :: 0 :: rest) < 65536) :
    wordSum (insertCk (p0 :: p1 :: 0 :: 0 :: rest)) =
      wordSum (p0 :: p1 :: 0 :: 0 :: rest) + icmpChecksum (p0 :: p1 :: 0 :: 0 :: rest) := by
  set c := icmpChecksum (p0 :: p1 :: 0 :: 0 :: rest) with hc
  have h1 : c / 256 % 256 = c / 256 := Nat.mod_eq_of_lt (by omega)
  simp only [insertCk, wordSum, ← hc, h1]
  omega

theorem icmpChecksum_lt (pkt : List Nat) : icmpChecksum pkt < 65536 := by
  unfold icmpChecksum
  exact Nat.mod_lt _ (by norm_num)

/-- On packets whose word sum fits in a `u32`, the `u32` wrapping in
`checksum` is invisible and the result is the one's complement of the folded
sum. -/
theorem icmpChecksum_eq (pkt : List Nat) (h : wordSum pkt < 4294967296) :
    icmpChecksum pkt = 65535 - fold16 (wordSum pkt) := by
  have hf := fold16_lt (wordSum pkt)
  unfold icmpChecksum
  rw [Nat.mod_eq_of_lt h]
  omega

/-- Writing `checksum(pkt)` into bytes 2..4 of a packet whose checksum field
was zero makes the folded word sum `0xFFFF`. -/
theorem insertCk_folds_to_ffff (p0 p1 : Nat) (rest : List Nat)
    (h : wordSum (p0 :: p1 :: 0 :: 0 :: rest) < 4294967296) :
    fold16 (wordSum (insertCk (p0 :: p1 :: 0 :: 0 :: rest))) = 65535 := by
  rw [wordSum_insertCk p0 p1 rest (icmpChecksum_lt _), icmpChecksum_eq _ h]
  exact fold16_compl _

theorem routeGo_done (addr : IpA) (rows : Nat → List Node) (t fuel : Nat) :
    routeGo addr rows true t fuel = [] := by
  cases fuel <;> simp [routeGo]

theorem range_map_shift (rows : Nat → List Node) (t n : Nat) :
    (List.range (n + 1)).map (fun i => rows (t + i)) =
      rows t :: (List.range n).map (fun i => rows (t + 1 + i)) := by
  rw [List.range_succ_eq_map]
  simp only [List.map_cons, List.map_map, Nat.add_zero]
  congr 1
  apply List.map_congr_left
  intro i _
  simp only [Function.comp_apply]
  congr 1
  omega

theorem routeGo_spec (addr : IpA) (rows : Nat → List Node) :
    ∀ fuel t, routeGo addr rows false t fuel =
      (List.range (match firstTerm addr rows t fuel with
                   | some k => k + 1
                   | Option.none => fuel)).map (fun i => rows (t + i)) := by
  intro fuel
  induction fuel with
  | zero => intro t; simp [routeGo, firstTerm]
  | succ f ih =>
      intro t
      by_cases hT : isTerm addr (rows t)
      · simp only [routeGo, if_neg (Bool.false_ne_true), hT, routeGo_done, firstTerm, if_pos]
        rw [show (1 : Nat) = 0 + 1 by rfl, List.range_succ]
        simp
      · simp only [routeGo, if_neg (Bool.false_ne_true), hT, firstTerm, if_neg, ih (t + 1)]
        cases hF : firstTerm addr rows (t + 1) f with
        | none => simpa using (range_map_shift rows t f).symm
        | some k => simpa using (range_map_shift rows t (k + 1)).symm

/-! ## Claim theorems -/

/-- C5 (counterexample): the claim says a packet whose bytes fail header
decoding is logged and the loop continues, terminating only on a socket
receive failure.  In `trace::icmp::recv4` the decode error is propagated with
`?`: an empty datagram terminates the loop with a decode error — the second
datagram is never processed and no socket failure occurred. -/
theorem c5_loop_dies_on_malformed_packet :
    recv4Loop [RIn.pkt [], RIn.pkt []] = ([], some Stop.decodeErr) ∧
      Stop.decodeErr ≠ Stop.sockErr := by
  constructor
  · rfl
  · decide

/-- C5 (amended): the `recv4` receive loop processes exactly the longest
prefix of inputs whose packets decode (delivering the matched keys), and
stops at the first failure — a decode error or panic ends the loop just as a
socket error does; only packets that decode but match nothing are skipped. -/
theorem c5_recv_loop_characterization (inputs : List RIn) :
    recv4Loop inputs =
      ((inputs.takeWhile okInput).filterMap deliveryOf,
        stopOf (inputs.dropWhile okInput).head?) := by
  induction inputs with
  | nil => rfl
  | cons i rest ih =>
      cases i with
      | sockErr => simp [recv4Loop, okInput, List.takeWhile_cons, List.dropWhile_cons, stopOf]
      | pkt b =>
          cases hs : recv4Step b with
          | ok d =>
              have hok : okInput (.pkt b) = true := by simp [okInput, hs]
              simp only [recv4Loop, hs, List.takeWhile_cons, List.dropWhile_cons, hok,
                if_pos, ih, List.filterMap_cons]
              cases d with
              | none => simp [deliveryOf, hs]
              | some x => simp [deliveryOf, hs]
          | err =>
              have hok : okInput (.pkt b) = false := by simp [okInput, hs]
              simp [recv4Loop, hs, List.takeWhile_cons, List.dropWhile_cons, hok, stopOf]
          | panicked =>
              have hok : okInput (.pkt b) = false := by simp [okInput, hs]
              simp [recv4Loop, hs, List.takeWhile_cons, List.dropWhile_cons, hok, stopOf]

/-- C1: `Tracer::route` returns the rows for TTL 1, 2, … up to and including
the first row containing a `Node` that is terminal or whose hop IP equals the
target (`specLen = k + 1` for the first such row index `k`), and exactly
`limit` rows for TTLs `1..limit` when no such row occurs among them
(`specLen = limit`); no row for a later TTL ever appears. -/
theorem c1_route_stops_at_boundary_row (addr : IpA) (limit : Nat) (rows : Nat → List Node) :
    route addr limit rows = (List.range (specLen addr limit rows)).map (fun i => rows (1 + i)) := by
  unfold route specLen
  exact routeGo_spec addr rows limit 1

/-- C4: dropping a Lease removes its key from the demux state synchronously —
for the ping token map, the knock `(src, dst)` map, and the trace source-port
reservation maps alike, a lookup of the dropped lease's key returns `none`. -/
theorem c4_lease_drop_removes_key (pm : List (Token × Nat)) (pl : PingLease)
    (km : List (KnockKey × Nat)) (kl : KnockLease)
    (ts : TraceState) (tl : TraceLease) :
    mapLookup (pingLeaseDrop pm pl) pl.token = none ∧
      mapLookup (knockLeaseDrop km kl) ⟨kl.src, kl.dst⟩ = none ∧
      mapLookup (traceMapOf (traceLeaseDrop ts tl) tl.proto) tl.addr = none := by
  refine ⟨mapLookup_remove pm pl.token, mapLookup_remove km ⟨kl.src, kl.dst⟩, ?_⟩
  cases h : tl.proto with
  | tcp port => simp [traceLeaseDrop, traceRelease, traceMapOf, h, mapLookup_remove]
  | udp port => simp [traceLeaseDrop, traceRelease, traceMapOf, h, mapLookup_remove]

/-- C6 (counterexample): the claim says the `(src, dst)` key is absent from
the demux map between two successive probes of one knock stream.
`Knocker::knock` reserves once before `try_unfold` and threads the lease
through every iteration, so between iterations the key is still mapped. -/
theorem c6_key_present_between_probes :
    mapLookup (knockBetween [] (.v4 ⟨127, 0, 0, 1⟩) 40000 (.v4 ⟨⟨127, 0, 0, 1⟩, 80⟩) 0)
        ⟨sockNew (.v4 ⟨127, 0, 0, 1⟩) 40000, .v4 ⟨⟨127, 0, 0, 1⟩, 80⟩⟩ = some 0 := by
  rfl

/-- C6 (amended): the ephemeral source-port Lease is acquired once per knock
stream, before the first probe; between successive probes the reserved
`(src, dst)` key is still present in the demux map, and it is removed only
when the Lease is dropped with the stream. -/
theorem c6_lease_held_across_stream (m0 : List (KnockKey × Nat)) (srcIp : IpA)
    (port : Nat) (dst : SockA) (i : Nat) :
    mapLookup (knockBetween m0 srcIp port dst i) ⟨sockNew srcIp port, dst⟩ = some 0 ∧
      mapLookup (knockLeaseDrop (knockBetween m0 srcIp port dst i) ⟨sockNew srcIp port, dst⟩)
          ⟨sockNew srcIp port, dst⟩ = none := by
  refine ⟨mapLookup_insert m0 _ 0, ?_⟩
  exact mapLookup_remove _ _

/-- C7: a knock probe yields `Some rtt` exactly when its single attempt
(`retries = 1`) receives a reply within `expiry` whose TCP header has SYN and
ACK set and whose acknowledgment number is `seq + 1` (`u32` wrap explicit);
the rtt is the saturating difference of arrival and send time, and a timeout
or a non-matching reply yields `None`, not an error. -/
theorem c7_knock_probe_match (seq : Nat) (attempts : Nat → Nat × Option (TcpHead × Nat)) :
    knockProbe seq attempts =
      match (attempts 0).2 with
      | some (head, when) =>
          if head.syn && head.ack && decide (head.ackNo = (seq + 1) % 4294967296)
          then some (when - (attempts 0).1)
          else none
      | none => none := by
  rcases hA : attempts 0 with ⟨sent, reply⟩
  cases reply with
  | none => simp [knockProbe, knockProbeGo, hA]
  | some r =>
      rcases r with ⟨head, when⟩
      by_cases h : head.syn && head.ack && decide (head.ackNo = (seq + 1) % 4294967296)
      · simp [knockProbe, knockProbeGo, hA, h]
      · simp [knockProbe, knockProbeGo, hA, h]

/-- C9 (code bug): `IcmpV4Packet::try_from` is supposed to be total,
returning a decode error on malformed input, but an 8-byte EchoReply packet
(type 0, code 0, no payload) reaches `Echo::try_from`, whose
`&slice[4..TOKEN_SIZE + 4]` indexes past the end of the 4-byte rest and
panics. -/
theorem c9_short_echo_reply_panics :
    icmpV4TryFrom (List.replicate 8 0) = PRes.panicked := by
  rfl

/-- C10: `Probe::increment` never changes `Probe::key`: TCP and ICMP advance
a sequence number the key omits, and UDP advances the destination port while
`Key::UDP` keeps only the destination IP. -/
theorem c10_increment_preserves_key (p : ProbeT) : p.increment.key = p.key := by
  cases p <;> rfl

theorem mem_be2_le (x b : Nat) (h : b ∈ be2 x) : b ≤ 255 := by
  simp only [be2, List.mem_cons, List.mem_singleton, List.not_mem_nil, or_false] at h
  rcases h with h | h <;> omega

/-- C8: for every constructed ICMPv4 echo packet — the 8-byte ICMP portion
built by `trace::probe::ICMPv4::encode` and the 64-byte ping buffer
checksummed by `ping::sock4::Sock4::send` — writing the value of `checksum`
into bytes 2..4 makes the one's-complement 16-bit big-endian word sum with
carry fold over the entire packet equal `0xFFFF`. -/
theorem c8_checksum_folds_to_ffff (id seq : Nat) (token : List Nat)
    (hlen : token.length = 16) (htok : ∀ b ∈ token, b ≤ 255) :
    fold16 (wordSum (insertCk (icmpEchoPkt id seq))) = 65535 ∧
      fold16 (wordSum (insertCk (pingEchoBuf id seq token))) = 65535 := by
  constructor
  · have hmem : ∀ b ∈ icmpEchoPkt id seq, b ≤ 255 := by
      intro b hb
      simp only [icmpEchoPkt, List.mem_cons, List.mem_append] at hb
      have hb' : b = 8 ∨ b = 0 ∨ b ∈ be2 id ∨ b ∈ be2 seq := by tauto
      rcases hb' with h | h | h | h
      · omega
      · omega
      · exact mem_be2_le id b h
      · exact mem_be2_le seq b h
    have hws := wordSum_le _ hmem
    have hl : (icmpEchoPkt id seq).length = 8 := by simp [icmpEchoPkt, be2]
    rw [hl] at hws
    exact insertCk_folds_to_ffff 8 0 (be2 id ++ be2 seq) (by
      have : wordSum (icmpEchoPkt id seq) = wordSum (8 :: 0 :: 0 :: 0 :: (be2 id ++ be2 seq)) := rfl
      omega)
  · have hmem : ∀ b ∈ pingEchoBuf id seq token, b ≤ 255 := by
      intro b hb
      simp only [pingEchoBuf, List.mem_cons, List.mem_append] at hb
      have hb' : b = 8 ∨ b = 0 ∨ b ∈ be2 id ∨ b ∈ be2 seq ∨ b ∈ token ∨
          b ∈ List.replicate 40 0 := by tauto
      rcases hb' with h | h | h | h | h | h
      · omega
      · omega
      · exact mem_be2_le id b h
      · exact mem_be2_le seq b h
      · exact htok b h
      · have := List.eq_of_mem_replicate h
        omega
    have hws := wordSum_le _ hmem
    have hl : (pingEchoBuf id seq token).length = 64 := by
      simp [pingEchoBuf, be2, hlen]
    rw [hl] at hws
    exact insertCk_folds_to_ffff 8 0 (be2 id ++ be2 seq ++ token ++ List.replicate 40 0) (by
      have : wordSum (pingEchoBuf id seq token) =
          wordSum (8 :: 0 :: 0 :: 0 :: (be2 id ++ be2 seq ++ token ++ List.replicate 40 0)) := rfl
      omega)

theorem c8_checksum_witness :
    fold16 (wordSum (insertCk (icmpEchoPkt 1 2))) = 65535 ∧
      fold16 (wordSum (insertCk (pingEchoBuf 1 2 (List.replicate 16 7)))) = 65535 :=
  c8_checksum_folds_to_ffff 1 2 (List.replicate 16 7) (by decide) (by decide)

/-- C3 (code bug): the spec says an ICMPv6 DestinationUnreachable reply marks
the probe's Node terminal, and `recv4` does mark the IPv4 analogue terminal,
but `trace::icmp::recv6` publishes `Echo(from, now, false)` for every
Unreachable sub-code: on a concrete Port-unreachable message embedding an
outstanding UDPv6 probe, the delivered terminal flag is `false`. -/
theorem c3_v6_unreachable_not_terminal :
    recv6Step c3Unreachable none sampleDst6 =
      .ok (some (.udp (.v6 ⟨sampleSrc6, 40000⟩) (.v6 sampleDst6), false)) := by
  rfl

/-- C2 (counterexample): for an ICMPv6 probe, `Probe::encode` emits only the
8-byte ICMPv6 echo header (the kernel prepends the IPv6 header), so
`Probe::decode6` — which first reads a 40-byte IPv6 header — fails on the
encoded buffer instead of returning the probe's key. -/
theorem c2_v6_encode_not_decodable :
    decode6 ((ProbeT.icmp6 ⟨sampleSrc6, sampleDst6, 7, 0⟩).encode 1) =
      .error "unexpected end of slice" := by
  rfl

/-- C2 (amended): for every v4 trace probe (ICMP, TCP, UDP), decoding the
buffer produced by `Probe::encode` with `Probe::decode4` succeeds and returns
the probe's `key()`; for every v6 probe, `encode` omits the IPv6 header that
the kernel prepends on send, so `Probe::decode6` on the encoded buffer
returns an error. -/
theorem c2_encode_decode_roundtrip (ttl : Nat) :
    (∀ p : ICMPv4p, p.id < 65536 →
        decode4 ((ProbeT.icmp4 p).encode ttl) = .ok (ProbeT.icmp4 p).key) ∧
      (∀ p : TCPv4p, p.src.port < 65536 →
        decode4 ((ProbeT.tcp4 p).encode ttl) = .ok (ProbeT.tcp4 p).key) ∧
      (∀ p : UDPv4p, p.src.port < 65536 →
        decode4 ((ProbeT.udp4 p).encode ttl) = .ok (ProbeT.udp4 p).key) ∧
      (∀ p : ICMPv6p, ∃ e, decode6 ((ProbeT.icmp6 p).encode ttl) = .error e) ∧
      (∀ p : TCPv6p, ∃ e, decode6 ((ProbeT.tcp6 p).encode ttl) = .error e) ∧
      (∀ p : UDPv6p, ∃ e, decode6 ((ProbeT.udp6 p).encode ttl) = .error e) := by
  refine ⟨?_, ?_, ?_, ?_, ?_, ?_⟩
  · intro p hid
    have h : p.id / 256 % 256 * 256 + p.id % 256 = p.id := by omega
    have hd : decode4 ((ProbeT.icmp4 p).encode ttl) =
        .ok (.icmp (.v4 p.src) (.v4 p.dst) (p.id / 256 % 256 * 256 + p.id % 256)) := rfl
    rw [hd, h]
    rfl
  · intro p hsp
    have h : p.src.port / 256 % 256 * 256 + p.src.port % 256 = p.src.port := by omega
    have hd : decode4 ((ProbeT.tcp4 p).encode ttl) =
        .ok (.tcp (.v4 ⟨p.src.ip, p.src.port / 256 % 256 * 256 + p.src.port % 256⟩)
              (.v4 p.dst.ip)) := rfl
    rw [hd, h]
    rfl
  · intro p hsp
    have h : p.src.port / 256 % 256 * 256 + p.src.port % 256 = p.src.port := by omega
    have hd : decode4 ((ProbeT.udp4 p).encode ttl) =
        .ok (.udp (.v4 ⟨p.src.ip, p.src.port / 256 % 256 * 256 + p.src.port % 256⟩)
              (.v4 p.dst.ip)) := rfl
    rw [hd, h]
    rfl
  · intro p
    exact ⟨"unexpected end of slice", rfl⟩
  · intro p
    exact ⟨"unexpected end of slice", rfl⟩
  · intro p
    exact ⟨"unexpected end of slice", rfl⟩

theorem c2_roundtrip_witness :
    decode4 ((ProbeT.icmp4 ⟨⟨192, 0, 2, 1⟩, ⟨192, 0, 2, 9⟩, 300, 4⟩).encode 3) =
        .ok ((ProbeT.icmp4 ⟨⟨192, 0, 2, 1⟩, ⟨192, 0, 2, 9⟩, 300, 4⟩).key) ∧
      decode4 ((ProbeT.tcp4 ⟨⟨⟨10, 0, 0, 1⟩, 40001⟩, ⟨⟨10, 0, 0, 2⟩, 443⟩, 99⟩).encode 3) =
        .ok ((ProbeT.tcp4 ⟨⟨⟨10, 0, 0, 1⟩, 40001⟩, ⟨⟨10, 0, 0, 2⟩, 443⟩, 99⟩).key) ∧
      decode4 ((ProbeT.udp4 ⟨⟨⟨10, 0, 0, 1⟩, 40002⟩, ⟨⟨10, 0, 0, 2⟩, 33434⟩⟩).encode 3) =
        .ok ((ProbeT.udp4 ⟨⟨⟨10, 0, 0, 1⟩, 40002⟩, ⟨⟨10, 0, 0, 2⟩, 33434⟩⟩).key) := by
  have h := c2_encode_decode_roundtrip 3
  exact ⟨h.1 _ (by decide), h.2.1 _ (by decide), h.2.2.1 _ (by decide)⟩

end Netdiag
